import Mathlib

/-!
Verification of `src/utils/generate_appicon.py` (neolee/mercury).

The script reads an SVG file and an Xcode `Contents.json` icon manifest,
renders one PNG per manifest entry whose `idiom` is `"mac"` and whose
`size`/`scale` fields are non-empty, records the generated filename in the
entry, and rewrites the manifest with `json.dumps(..., indent=2,
ensure_ascii=False) + "\n"`.

The embedding below models the JSON documents involved, the helper
functions `parse_size`, `scale_factor` and `build_filename`, and `main` as
an explicit state transformer producing the trace of render calls, the
list of output files written, and the manifest content after the run.
External collaborators are modelled as follows: `cairosvg.svg2png` is an
oracle `RenderCall → Bool` saying whether a given render invocation
succeeds; `json.loads` / `json.dumps` are modelled by `loads` / `dumps`
on the JSON fragment the manifest uses (null, booleans, integers, strings
without `\u` escapes, arrays, objects); Python's `int(str)` is modelled by
`pyInt` (optional surrounding ASCII whitespace, optional sign, decimal
digits with single underscores strictly between digits).
-/

/-- JSON values, as produced by `json.loads`: objects keep their key order
(Python dicts preserve insertion order), so an object is an ordered
association list. -/
inductive Json where
  | null
  | bool (b : Bool)
  | num (n : Int)
  | str (s : String)
  | arr (xs : List Json)
  | obj (kvs : List (String × Json))

/-- The opening-brace character, kept out of string literals. -/
def lbrace : Char := Char.ofNat 123

/-- The closing-brace character, kept out of string literals. -/
def rbrace : Char := Char.ofNat 125

/-- Python truthiness of a JSON value (`not x` in the filter of `main`). -/
def truthy : Json → Bool
  | .null => false
  | .bool b => b
  | .num n => n != 0
  | .str s => s != ""
  | .arr xs => !xs.isEmpty
  | .obj kvs => !kvs.isEmpty

/-- Truthiness of the result of `image.get(key)`: a missing key yields
`None`, which is falsy. -/
def truthyOpt : Option Json → Bool
  | none => false
  | some v => truthy v

/-- `d.get(key)`: first binding of `key` in the ordered object. -/
def getKey : List (String × Json) → String → Option Json
  | [], _ => none
  | (k, v) :: rest, key => if k == key then some v else getKey rest key

/-- `d[key] = v` on a Python dict: replace the value of an existing key in
place (keeping its position), otherwise append the new binding at the
end. -/
def setObjKey : List (String × Json) → String → Json → List (String × Json)
  | [], key, v => [(key, v)]
  | (k, w) :: rest, key, v =>
    if k == key then (k, v) :: rest else (k, w) :: setObjKey rest key v

/-- ASCII whitespace stripped by Python's `str.strip()` (the fragment
relevant to `int(...)` arguments). -/
def isPyWs (c : Char) : Bool :=
  c == ' ' || c == '\t' || c == '\n' || c == '\r' || c == Char.ofNat 11 || c == Char.ofNat 12

/-- `str.strip()` on ASCII whitespace. -/
def pyStrip (s : String) : String :=
  String.mk (((s.data.dropWhile isPyWs).reverse.dropWhile isPyWs).reverse)

/-- Digit run of a Python decimal integer literal, with an accumulator:
single underscores are allowed strictly between digits. -/
def pyDigitsVal : List Char → Nat → Option Nat
  | [], acc => some acc
  | '_' :: c :: rest, acc =>
    if c.isDigit then pyDigitsVal rest (10 * acc + (c.toNat - 48)) else none
  | c :: rest, acc =>
    if c.isDigit then pyDigitsVal rest (10 * acc + (c.toNat - 48)) else none

/-- Digits of a Python decimal integer literal: at least one digit, and the
first character must be a digit (no leading underscore). -/
def pyDigitsStart : List Char → Option Nat
  | [] => none
  | c :: rest => if c.isDigit then pyDigitsVal rest (c.toNat - 48) else none

/-- Sign handling of Python's `int(str)` after stripping. -/
def pyIntCore : List Char → Option Int
  | '+' :: rest => (pyDigitsStart rest).map (fun n => (n : Int))
  | '-' :: rest => (pyDigitsStart rest).map (fun n => -(n : Int))
  | cs => (pyDigitsStart cs).map (fun n => (n : Int))

/-- Python's `int(s)` for a string argument: strip whitespace, optional
sign, decimal digits; `none` models `ValueError`. -/
def pyInt (s : String) : Option Int := pyIntCore (pyStrip s).data

/-- `size_str.split("x")[0]`: the part of the string before the first
`'x'` (the whole string when there is no `'x'`). -/
def firstComponent (s : String) : String :=
  String.mk (s.data.takeWhile (fun c => c != 'x'))

/-- `parse_size` from the source: `int(size_str.split("x")[0])`.
`none` models the `ValueError` raised by `int`. -/
def parse_size (s : String) : Option Int := pyInt (firstComponent s)

/-- `scale_str.replace("x", "")`: removes every `'x'`. -/
def removeX (s : String) : String := String.mk (s.data.filter (fun c => c != 'x'))

/-- `scale_factor` from the source: `int(scale_str.replace("x", ""))`. -/
def scale_factor (s : String) : Option Int := pyInt (removeX s)

/-- `OUTPUT_NAME` from the source. -/
def OUTPUT_NAME : String := "mercury-appicon"

/-- `build_filename` from the source. -/
def build_filename (base_size : Int) (scale : Int) : String :=
  if scale = 1 then
    OUTPUT_NAME ++ "_" ++ toString base_size ++ "x" ++ toString base_size ++ ".png"
  else
    OUTPUT_NAME ++ "_" ++ toString base_size ++ "x" ++ toString base_size ++
      "@" ++ toString scale ++ "x.png"

/-- One invocation of `cairosvg.svg2png(url=..., write_to=output_path,
output_width=px_size, output_height=px_size)`: the output filename and the
two pixel dimensions passed. -/
structure RenderCall where
  output : String
  width : Int
  height : Int
deriving DecidableEq

/-- The errors `main` can terminate with: the two explicit `SystemExit`
precondition failures, and the exceptions propagated from `json.loads`,
attribute access / iteration on ill-typed values, `int(...)` parse
failures, and renderer failures.  All terminate the process with a
non-zero exit status. -/
inductive Err where
  | svgMissing
  | manifestMissing
  | jsonDecode
  | attributeError
  | typeError
  | valueError
  | renderFailure
deriving DecidableEq

/-- Outcome of the loop body of `main` on one manifest entry: the new
entry (or the propagated error), the render call attempted (if any), and
the output file written (if any). -/
structure StepOut where
  res : Except Err Json
  call : Option RenderCall
  file : Option String

/-- `image.get("idiom") != "mac"` negated: a Python value equals the
string `"mac"` exactly when it is that string. -/
def isMacIdiom : Option Json → Bool
  | some (.str s) => s == "mac"
  | _ => false

/-- The loop body of `main` for one element of `images`.
Non-dict elements fail on `.get` (`AttributeError`); entries failing the
filter `idiom != "mac" or not size_str or not scale_str` are skipped
untouched; otherwise `parse_size`, `scale_factor`, the render call, and
the `image["filename"]` assignment happen in source order. -/
def processImage (render : RenderCall → Bool) : Json → StepOut
  | .obj kvs =>
    let size := getKey kvs "size"
    let scale := getKey kvs "scale"
    let idiom := getKey kvs "idiom"
    if !(isMacIdiom idiom) || !(truthyOpt size) || !(truthyOpt scale) then
      ⟨.ok (.obj kvs), none, none⟩
    else
      match size with
      | some (.str size_str) =>
        match parse_size size_str with
        | none => ⟨.error .valueError, none, none⟩
        | some base_size =>
          match scale with
          | some (.str scale_str) =>
            match scale_factor scale_str with
            | none => ⟨.error .valueError, none, none⟩
            | some scl =>
              let px_size := base_size * scl
              let filename := build_filename base_size scl
              let call : RenderCall := ⟨filename, px_size, px_size⟩
              if render call then
                ⟨.ok (.obj (setObjKey kvs "filename" (.str filename))),
                  some call, some filename⟩
              else
                ⟨.error .renderFailure, some call, none⟩
          | _ => ⟨.error .attributeError, none, none⟩
      | _ => ⟨.error .attributeError, none, none⟩
  | _ => ⟨.error .attributeError, none, none⟩

/-- The `for image in images` loop: entries processed left to right, the
first failure aborts the loop; the trace of attempted render calls and of
files already written is kept even on failure (no cleanup). -/
def processImages (render : RenderCall → Bool) :
    List Json → Except Err (List Json) × List RenderCall × List String
  | [] => (.ok [], [], [])
  | img :: rest =>
    match processImage render img with
    | ⟨.error e, c, f⟩ => (.error e, c.toList, f.toList)
    | ⟨.ok img', c, f⟩ =>
      match processImages render rest with
      | (.error e, cs, fs) => (.error e, c.toList ++ cs, f.toList ++ fs)
      | (.ok rest', cs, fs) => (.ok (img' :: rest'), c.toList ++ cs, f.toList ++ fs)

/-- The manifest transformation performed by `main` after the two
existence checks: `data.get("images", [])` followed by the loop.  A
missing `images` key iterates the default `[]` and leaves `data` as is;
a non-list value is iterated by Python: an empty string or empty dict
iterates zero times, a non-empty string or dict yields non-dict items
(`AttributeError` on `.get`), and `None`/booleans/numbers are not
iterable (`TypeError`).  Top-level non-dict data fails on `.get`. -/
def runData (render : RenderCall → Bool) :
    Json → Except Err Json × List RenderCall × List String
  | .obj kvs =>
    match getKey kvs "images" with
    | none => (.ok (.obj kvs), [], [])
    | some (.arr imgs) =>
      match processImages render imgs with
      | (.error e, cs, fs) => (.error e, cs, fs)
      | (.ok imgs', cs, fs) =>
        (.ok (.obj (setObjKey kvs "images" (.arr imgs'))), cs, fs)
    | some (.str s) =>
      if s == "" then (.ok (.obj kvs), [], []) else (.error .attributeError, [], [])
    | some (.obj okvs) =>
      if okvs.isEmpty then (.ok (.obj kvs), [], []) else (.error .attributeError, [], [])
    | some _ => (.error .typeError, [], [])
  | _ => (.error .attributeError, [], [])

/-- The opening brace as a one-character string. -/
def obrace : String := String.singleton lbrace

/-- The closing brace as a one-character string. -/
def cbrace : String := String.singleton rbrace

/-- JSON whitespace accepted between tokens by `json.loads`. -/
def isJsonWs (c : Char) : Bool :=
  c == ' ' || c == '\t' || c == '\n' || c == '\r'

/-- Skip JSON whitespace. -/
def skipWs (cs : List Char) : List Char := cs.dropWhile isJsonWs

/-- Decoding of a two-character escape inside a JSON string literal
(`\uXXXX` escapes are outside the modelled fragment). -/
def escDecode (c : Char) : Option Char :=
  match c.toNat with
  | 34 => some '"'
  | 47 => some '/'
  | 92 => some '\\'
  | 98 => some (Char.ofNat 8)
  | 102 => some (Char.ofNat 12)
  | 110 => some '\n'
  | 114 => some '\r'
  | 116 => some '\t'
  | _ => none

/-- Body of a JSON string literal after the opening quote, up to and
including the closing quote.  Unescaped control characters are rejected,
as `json.loads` does in strict mode. -/
def parseStringBody : List Char → Option (String × List Char)
  | [] => none
  | '"' :: rest => some ("", rest)
  | '\\' :: c :: rest =>
    match escDecode c with
    | some ec => (parseStringBody rest).map (fun p => (String.singleton ec ++ p.1, p.2))
    | none => none
  | c :: rest =>
    if c.toNat < 32 then none
    else (parseStringBody rest).map (fun p => (String.singleton c ++ p.1, p.2))

/-- Decimal digit run with accumulator. -/
def jsonDigits : List Char → Nat → Nat × List Char
  | [], acc => (acc, [])
  | c :: cs, acc =>
    if c.isDigit then jsonDigits cs (10 * acc + (c.toNat - 48)) else (acc, c :: cs)

/-- An unsigned JSON integer: no redundant leading zero, and fractions or
exponents (floats) are outside the modelled fragment. -/
def parsePosNum : List Char → Option (Nat × List Char)
  | [] => none
  | c :: cs =>
    if c == '0' then
      match cs with
      | d :: _ =>
        if d.isDigit || d == '.' || d == 'e' || d == 'E' then none else some (0, cs)
      | [] => some (0, [])
    else if c.isDigit then
      match jsonDigits cs (c.toNat - 48) with
      | (n, d :: rest) =>
        if d == '.' || d == 'e' || d == 'E' then none else some (n, d :: rest)
      | (n, []) => some (n, [])
    else none

/-- A JSON integer with optional leading minus sign. -/
def parseNumber : List Char → Option (Json × List Char)
  | '-' :: rest => (parsePosNum rest).map (fun p => (.num (-(p.1 : Int)), p.2))
  | cs => (parsePosNum cs).map (fun p => (.num ((p.1 : Nat) : Int), p.2))

/-- Members of an object are accumulated the way Python builds a dict:
a repeated key keeps its first position and takes the last value. -/
def buildObj : List (String × Json) → List (String × Json) → List (String × Json)
  | acc, [] => acc
  | acc, (k, v) :: rest => buildObj (setObjKey acc k v) rest

mutual

/-- Recursive-descent JSON value, fuel-indexed (the fuel only bounds the
recursion depth; `loads` supplies enough for its whole input). -/
def parseValueF : Nat → List Char → Option (Json × List Char)
  | 0, _ => none
  | f+1, cs =>
    match skipWs cs with
    | 'n' :: 'u' :: 'l' :: 'l' :: rest => some (.null, rest)
    | 't' :: 'r' :: 'u' :: 'e' :: rest => some (.bool true, rest)
    | 'f' :: 'a' :: 'l' :: 's' :: 'e' :: rest => some (.bool false, rest)
    | '"' :: rest => (parseStringBody rest).map (fun p => (.str p.1, p.2))
    | '[' :: rest =>
      (match skipWs rest with
       | ']' :: r => some (.arr [], r)
       | cs' =>
         match parseValueF f cs' with
         | none => none
         | some (v, r) =>
           match parseArrTailF f r with
           | none => none
           | some (vs, r') => some (.arr (v :: vs), r'))
    | c :: rest =>
      if c == lbrace then
        match skipWs rest with
        | [] => none
        | d :: r =>
          if d == rbrace then some (.obj [], r)
          else
            match parseMemberF f (d :: r) with
            | none => none
            | some (kv, r') =>
              match parseObjTailF f r' with
              | none => none
              | some (kvs, r'') => some (.obj (buildObj [] (kv :: kvs)), r'')
      else parseNumber (c :: rest)
    | [] => none

/-- Elements of an array after the first one. -/
def parseArrTailF : Nat → List Char → Option (List Json × List Char)
  | 0, _ => none
  | f+1, cs =>
    match skipWs cs with
    | ']' :: rest => some ([], rest)
    | ',' :: rest =>
      match parseValueF f rest with
      | none => none
      | some (v, r) =>
        match parseArrTailF f r with
        | none => none
        | some (vs, r') => some (v :: vs, r')
    | _ => none

/-- One `"key": value` member of an object. -/
def parseMemberF : Nat → List Char → Option ((String × Json) × List Char)
  | 0, _ => none
  | f+1, cs =>
    match skipWs cs with
    | '"' :: rest =>
      match parseStringBody rest with
      | none => none
      | some (k, r) =>
        match skipWs r with
        | ':' :: r' =>
          match parseValueF f r' with
          | none => none
          | some (v, r'') => some ((k, v), r'')
        | _ => none
    | _ => none

/-- Members of an object after the first one. -/
def parseObjTailF : Nat → List Char → Option (List (String × Json) × List Char)
  | 0, _ => none
  | f+1, cs =>
    match skipWs cs with
    | ',' :: rest =>
      match parseMemberF f rest with
      | none => none
      | some (kv, r) =>
        match parseObjTailF f r with
        | none => none
        | some (kvs, r') => some (kv :: kvs, r')
    | c :: rest => if c == rbrace then some ([], rest) else none
    | [] => none

end

/-- `json.loads` on the modelled fragment: one value, with surrounding
whitespace allowed and no trailing garbage.  `none` models
`json.JSONDecodeError` (and inputs outside the fragment). -/
def loads (t : String) : Option Json :=
  match parseValueF (t.length + 1) t.data with
  | none => none
  | some (v, rest) => match skipWs rest with | [] => some v | _ => none

/-- Indentation produced by `json.dumps(..., indent=2)` at nesting level
`lvl`. -/
def ind (lvl : Nat) : String := String.mk (List.replicate (2 * lvl) ' ')

/-- Hex digit character (lowercase), for `\u00XX` escapes. -/
def hexDigChar (n : Nat) : Char :=
  if n < 10 then Char.ofNat (48 + n) else Char.ofNat (87 + n)

/-- How `json.dumps(..., ensure_ascii=False)` escapes one character of a
string: only the quote, the backslash and control characters are
escaped. -/
def escChar (c : Char) : String :=
  if c == '"' then "\\\""
  else if c == '\\' then "\\\\"
  else if c == '\n' then "\\n"
  else if c == '\t' then "\\t"
  else if c == '\r' then "\\r"
  else if c == Char.ofNat 8 then "\\b"
  else if c == Char.ofNat 12 then "\\f"
  else if c.toNat < 32 then
    "\\u00" ++ String.singleton (hexDigChar (c.toNat / 16)) ++
      String.singleton (hexDigChar (c.toNat % 16))
  else String.singleton c

/-- A JSON string literal as `json.dumps(..., ensure_ascii=False)` writes
it. -/
def encStr (s : String) : String :=
  "\"" ++ String.join (s.data.map escChar) ++ "\""

mutual

/-- `json.dumps(v, indent=2, ensure_ascii=False)` at nesting level `lvl`,
fuel-indexed (the fuel only bounds the recursion depth; `dumps` supplies
`sizeOf v`, which always suffices). -/
def dumpsV : Nat → Nat → Json → String
  | 0, _, _ => ""
  | _+1, _, .null => "null"
  | _+1, _, .bool b => if b then "true" else "false"
  | _+1, _, .num n => toString n
  | _+1, _, .str s => encStr s
  | f+1, lvl, .arr xs =>
    match xs with
    | [] => "[]"
    | x :: rest => "[\n" ++ dumpsItems f (lvl+1) x rest ++ "\n" ++ ind lvl ++ "]"
  | f+1, lvl, .obj kvs =>
    match kvs with
    | [] => obrace ++ cbrace
    | kv :: rest =>
      obrace ++ "\n" ++ dumpsPairs f (lvl+1) kv rest ++ "\n" ++ ind lvl ++ cbrace

/-- Comma-and-newline separated array items, each on its own indented
line. -/
def dumpsItems : Nat → Nat → Json → List Json → String
  | 0, _, _, _ => ""
  | f+1, lvl, x, [] => ind lvl ++ dumpsV f lvl x
  | f+1, lvl, x, y :: rest =>
    ind lvl ++ dumpsV f lvl x ++ ",\n" ++ dumpsItems f lvl y rest

/-- Comma-and-newline separated object members, each on its own indented
line, with `": "` between key and value. -/
def dumpsPairs : Nat → Nat → String × Json → List (String × Json) → String
  | 0, _, _, _ => ""
  | f+1, lvl, kv, [] => ind lvl ++ encStr kv.1 ++ ": " ++ dumpsV f lvl kv.2
  | f+1, lvl, kv, kv2 :: rest =>
    ind lvl ++ encStr kv.1 ++ ": " ++ dumpsV f lvl kv.2 ++ ",\n" ++ dumpsPairs f lvl kv2 rest

end

/-- Serializer fuel used for a manifest read from text `t`.  `dumpsV`
spends one unit of fuel per node visited and per list step, and the number
of nodes of a value parsed from `t` is at most `t.length` (every node
consumes at least one input character); the extra `filename` members the
run adds contribute two steps per selected entry, each of which consumes
far more than two characters of `t`.  So this bound always suffices and
the `0`-fuel case of `dumpsV` is never reached on a run. -/
def dumpsFuel (t : String) : Nat := 2 * t.length + 16

/-- `json.dumps(v, indent=2, ensure_ascii=False)`, with the recursion
fuel made explicit. -/
def dumps (fuel : Nat) (v : Json) : String := dumpsV fuel 0 v

/-- Everything observable about one run of `main`: the final outcome
(`.ok ()` is a zero exit status, `.error` a non-zero one), the trace of
attempted render calls in order, the output image files written, and the
content of the manifest file after the run (`none` when it does not
exist). -/
structure RunResult where
  result : Except Err Unit
  calls : List RenderCall
  files : List String
  manifestAfter : Option String

/-- `main`: existence checks on the SVG and on `Contents.json` (the SVG is
checked first, and a missing SVG aborts before the manifest is even read),
then `json.loads`, the processing loop, and — only when every entry
succeeded — the rewrite of the manifest as `json.dumps(data, indent=2,
ensure_ascii=False) + "\n"`.  The SVG existence flag and the manifest file
content (`none` when absent) stand for the state of the filesystem;
`render` is the external rasterizer oracle. -/
def runFile (svgExists : Bool) (manifest : Option String)
    (render : RenderCall → Bool) : RunResult :=
  if svgExists then
    match manifest with
    | none => ⟨.error .manifestMissing, [], [], none⟩
    | some t =>
      match loads t with
      | none => ⟨.error .jsonDecode, [], [], some t⟩
      | some data =>
        match runData render data with
        | (.error e, cs, fs) => ⟨.error e, cs, fs, some t⟩
        | (.ok data', cs, fs) =>
          ⟨.ok (), cs, fs, some (dumps (dumpsFuel t) data' ++ "\n")⟩
  else ⟨.error .svgMissing, [], [], manifest⟩

/-- The selection filter of the loop, as a predicate on one entry. -/
def selectedEntry : Json → Bool
  | .obj kvs =>
    isMacIdiom (getKey kvs "idiom") && truthyOpt (getKey kvs "size") &&
      truthyOpt (getKey kvs "scale")
  | _ => false

/-- How one entry may change across a successful run: an unselected entry
is returned unchanged, a selected entry differs from the original at most
in its `filename` binding. -/
def entryRel (e e' : Json) : Prop :=
  (selectedEntry e = false → e' = e) ∧
  (selectedEntry e = true →
    ∃ kvs fn, e = .obj kvs ∧ e' = .obj (setObjKey kvs "filename" (.str fn)))

/-- How one top-level manifest binding may change across a successful run:
same key, unchanged unless the key is `"images"`, and the `"images"`
binding is either unchanged or an entrywise `entryRel` update of its
array. -/
def bindingRel (kv kv' : String × Json) : Prop :=
  kv'.1 = kv.1 ∧
  (kv.1 ≠ "images" → kv' = kv) ∧
  (kv.1 = "images" → kv' = kv ∨
    ∃ imgs imgs', kv.2 = .arr imgs ∧ kv'.2 = .arr imgs' ∧
      List.Forall₂ entryRel imgs imgs')

/-! ## Helper lemmas about the string-level helpers -/

theorem digit_bne_x {c : Char} (h : c.isDigit = true) : (c != 'x') = true := by
  rcases hcx : c == 'x' with _ | _
  · simp [bne, hcx]
  · have hc : c = 'x' := beq_iff_eq.mp hcx
    rw [hc] at h
    simp [Char.isDigit] at h

theorem takeWhile_append_stop {p : Char → Bool} (l₁ l₂ : List Char) (x : Char)
    (h₁ : ∀ c ∈ l₁, p c = true) (hx : p x = false) :
    (l₁ ++ x :: l₂).takeWhile p = l₁ := by
  induction l₁ with
  | nil => simp [List.takeWhile_cons, hx]
  | cons a l ih =>
    simp only [List.cons_append, List.takeWhile_cons]
    rw [h₁ a (List.mem_cons_self a l)]
    simp only [if_true]
    rw [ih (fun c hc => h₁ c (List.mem_cons_of_mem a hc))]

theorem firstComponent_concat (s r : String) (hs : ∀ c ∈ s.data, (c != 'x') = true) :
    firstComponent (s ++ "x" ++ r) = s := by
  unfold firstComponent
  have hd : (s ++ "x" ++ r).data = s.data ++ 'x' :: r.data := by
    rw [String.data_append, String.data_append, List.append_assoc]
    rfl
  rw [hd, takeWhile_append_stop s.data r.data 'x' hs (by decide)]

theorem removeX_concat_x (s : String) (hs : ∀ c ∈ s.data, (c != 'x') = true) :
    removeX (s ++ "x") = s := by
  unfold removeX
  have hd : (s ++ "x").data = s.data ++ ['x'] := by rw [String.data_append]
  rw [hd, List.filter_append]
  have h₂ : List.filter (fun c => c != 'x') ['x'] = [] := by decide
  rw [h₂, List.append_nil, List.filter_eq_self.mpr hs]

/-! ## Claims C6, C7, C8, C9 -/

/-- C6: for every positive integer base size `S` and integer multiplier
`N`, `build_filename` returns `"mercury-appicon_SxS.png"` when `N = 1`
and `"mercury-appicon_SxS@Nx.png"` when `N > 1`. -/
theorem claim_c6 (S N : Int) (hS : 0 < S) :
    build_filename S 1 =
      "mercury-appicon_" ++ toString S ++ "x" ++ toString S ++ ".png" ∧
    (1 < N →
      build_filename S N =
        "mercury-appicon_" ++ toString S ++ "x" ++ toString S ++ "@" ++
          toString N ++ "x.png") := by
  constructor
  · rfl
  · intro hN
    have hne : ¬(N = 1) := by omega
    simp only [build_filename, if_neg hne]
    rfl

/-- Witness for C6 at `S = 16`, `N = 2`. -/
theorem claim_c6_witness :
    (0 : Int) < 16 ∧
    build_filename 16 1 = "mercury-appicon_" ++ toString (16 : Int) ++ "x" ++
      toString (16 : Int) ++ ".png" ∧
    build_filename 16 2 = "mercury-appicon_" ++ toString (16 : Int) ++ "x" ++
      toString (16 : Int) ++ "@" ++ toString (2 : Int) ++ "x.png" := by
  refine ⟨by decide, (claim_c6 16 2 (by decide)).1, (claim_c6 16 2 (by decide)).2 (by decide)⟩

/-- C7: for every valid size string `"WxW"` whose component is a decimal
numeral denoting `W`, `parse_size` returns `W`. -/
theorem claim_c7 (s : String) (W : Int)
    (hdig : ∀ c ∈ s.data, c.isDigit = true)
    (hval : pyInt s = some W) :
    parse_size (s ++ "x" ++ s) = some W := by
  unfold parse_size
  rw [firstComponent_concat s s (fun c hc => digit_bne_x (hdig c hc))]
  exact hval

/-- Witness for C7 at `"16x16"`. -/
theorem claim_c7_witness :
    (∀ c ∈ ("16" : String).data, c.isDigit = true) ∧
    pyInt "16" = some 16 ∧
    parse_size ("16" ++ "x" ++ "16") = some 16 := by
  refine ⟨by decide, rfl, claim_c7 "16" 16 (by decide) rfl⟩

/-- C8: for every valid scale string `"Nx"` whose component is a decimal
numeral denoting `N`, `scale_factor` returns `N`. -/
theorem claim_c8 (s : String) (N : Int)
    (hdig : ∀ c ∈ s.data, c.isDigit = true)
    (hval : pyInt s = some N) :
    scale_factor (s ++ "x") = some N := by
  unfold scale_factor
  rw [removeX_concat_x s (fun c hc => digit_bne_x (hdig c hc))]
  exact hval

/-- Witness for C8 at `"2x"`. -/
theorem claim_c8_witness :
    (∀ c ∈ ("2" : String).data, c.isDigit = true) ∧
    pyInt "2" = some 2 ∧
    scale_factor ("2" ++ "x") = some 2 := by
  refine ⟨by decide, rfl, claim_c8 "2" 2 (by decide) rfl⟩

/-- C9: for every size string `"WxH"` whose first component is a decimal
numeral denoting `W`, `parse_size` returns `W` regardless of the second
component `H` — including non-square sizes, which are not rejected. -/
theorem claim_c9 (s H : String) (W : Int)
    (hdig : ∀ c ∈ s.data, c.isDigit = true)
    (hval : pyInt s = some W) :
    parse_size (s ++ "x" ++ H) = some W := by
  unfold parse_size
  rw [firstComponent_concat s H (fun c hc => digit_bne_x (hdig c hc))]
  exact hval

/-- Witness for C9 at the non-square size `"16x32"`. -/
theorem claim_c9_witness :
    (∀ c ∈ ("16" : String).data, c.isDigit = true) ∧
    pyInt "16" = some 16 ∧
    parse_size ("16" ++ "x" ++ "32") = some 16 := by
  refine ⟨by decide, rfl, claim_c9 "16" "32" 16 (by decide) rfl⟩

/-! ## Helper lemmas about the processing loop -/

theorem parse_size_ne_empty {s : String} {W : Int} (h : parse_size s = some W) :
    s ≠ "" := by
  intro hs
  rw [hs] at h
  exact Option.noConfusion ((rfl : parse_size "" = none).symm.trans h)

theorem scale_factor_ne_empty {s : String} {N : Int} (h : scale_factor s = some N) :
    s ≠ "" := by
  intro hs
  rw [hs] at h
  exact Option.noConfusion ((rfl : scale_factor "" = none).symm.trans h)

theorem processImage_skip (r : RenderCall → Bool) (kvs : List (String × Json))
    (h : isMacIdiom (getKey kvs "idiom") = false ∨
      truthyOpt (getKey kvs "size") = false ∨
      truthyOpt (getKey kvs "scale") = false) :
    processImage r (.obj kvs) = ⟨.ok (.obj kvs), none, none⟩ := by
  unfold processImage
  rcases h with h | h | h <;> simp [h]

theorem processImage_selected (r : RenderCall → Bool) (kvs : List (String × Json))
    (size_str scale_str : String) (W N : Int)
    (hid : getKey kvs "idiom" = some (.str "mac"))
    (hsz : getKey kvs "size" = some (.str size_str))
    (hsc : getKey kvs "scale" = some (.str scale_str))
    (hW : parse_size size_str = some W)
    (hN : scale_factor scale_str = some N) :
    processImage r (.obj kvs) =
      if r ⟨build_filename W N, W * N, W * N⟩ then
        ⟨.ok (.obj (setObjKey kvs "filename" (.str (build_filename W N)))),
          some ⟨build_filename W N, W * N, W * N⟩, some (build_filename W N)⟩
      else
        ⟨.error .renderFailure, some ⟨build_filename W N, W * N, W * N⟩, none⟩ := by
  have h1 : (size_str != "") = true := bne_iff_ne.mpr (parse_size_ne_empty hW)
  have h2 : (scale_str != "") = true := bne_iff_ne.mpr (scale_factor_ne_empty hN)
  simp [processImage, hid, hsz, hsc, hW, hN, isMacIdiom, truthyOpt, truthy, h1, h2]

theorem processImages_append (r : RenderCall → Bool) (xs ys : List Json) :
    processImages r (xs ++ ys) =
      match processImages r xs with
      | (.error e, cs, fs) => (.error e, cs, fs)
      | (.ok xs', cs, fs) =>
        match processImages r ys with
        | (.error e, cs₂, fs₂) => (.error e, cs ++ cs₂, fs ++ fs₂)
        | (.ok ys', cs₂, fs₂) => (.ok (xs' ++ ys'), cs ++ cs₂, fs ++ fs₂) := by
  induction xs with
  | nil =>
    rcases h : processImages r ys with ⟨res, cs, fs⟩
    cases res <;> simp [processImages, h]
  | cons x xs ih =>
    rcases hpx : processImage r x with ⟨res, c, f⟩
    cases res with
    | error e =>
      simp only [List.cons_append, processImages, hpx]
    | ok x' =>
      rcases h1 : processImages r xs with ⟨res1, cs1, fs1⟩
      rcases h2 : processImages r ys with ⟨res2, cs2, fs2⟩
      simp only [List.cons_append, processImages, hpx, List.append_eq]
      rw [ih, h1, h2]
      cases res1 <;> cases res2 <;> simp [List.append_assoc]

/-! ## Claims C1 and C3 -/

/-- C1: a manifest entry whose `idiom` is `"mac"` and whose `size` and
`scale` fields parse as `"WxH"` and `"Nx"` produces, on a successful run of
the loop, exactly one render call with output width and height both equal
to `W * N`, and its `filename` field is set to exactly the string
`build_filename W N`; the other entries account for the rest of the
trace. -/
theorem claim_c1 (r : RenderCall → Bool) (pre post : List Json)
    (kvs : List (String × Json)) (size_str scale_str : String) (W N : Int)
    (out : List Json) (cs : List RenderCall) (fs : List String)
    (hid : getKey kvs "idiom" = some (.str "mac"))
    (hsz : getKey kvs "size" = some (.str size_str))
    (hsc : getKey kvs "scale" = some (.str scale_str))
    (hW : parse_size size_str = some W)
    (hN : scale_factor scale_str = some N)
    (hrun : processImages r (pre ++ .obj kvs :: post) = (.ok out, cs, fs)) :
    ∃ pre' post' cs₁ cs₂ fs₁ fs₂,
      processImages r pre = (.ok pre', cs₁, fs₁) ∧
      processImages r post = (.ok post', cs₂, fs₂) ∧
      out = pre' ++ .obj (setObjKey kvs "filename" (.str (build_filename W N))) :: post' ∧
      cs = cs₁ ++ (⟨build_filename W N, W * N, W * N⟩ : RenderCall) :: cs₂ ∧
      fs = fs₁ ++ build_filename W N :: fs₂ := by
  rw [processImages_append r pre (.obj kvs :: post)] at hrun
  rcases h1 : processImages r pre with ⟨res1, cs1, fs1⟩
  rw [h1] at hrun
  cases res1 with
  | error e => simp at hrun
  | ok pre' =>
    have hmid := processImage_selected r kvs size_str scale_str W N hid hsz hsc hW hN
    cases hr : r ⟨build_filename W N, W * N, W * N⟩ with
    | false =>
      rw [hr] at hmid
      simp at hmid
      rcases h2 : processImages r post with ⟨res2, cs2, fs2⟩
      simp only [processImages, hmid, h2] at hrun
      cases res2 <;> simp at hrun
    | true =>
      rw [hr] at hmid
      simp at hmid
      rcases h2 : processImages r post with ⟨res2, cs2, fs2⟩
      simp only [processImages, hmid, h2] at hrun
      cases res2 with
      | error e => simp at hrun
      | ok post' =>
        simp only [Option.toList_some] at hrun
        obtain ⟨hout, hcs, hfs⟩ := by
          simpa using hrun
        exact ⟨pre', post', cs1, cs2, fs1, fs2, rfl, rfl, hout.symm, hcs.symm, hfs.symm⟩

/-- Witness for C1: a one-entry manifest `idiom == "mac"`,
`size == "16x16"`, `scale == "2x"` under an always-succeeding renderer. -/
theorem claim_c1_witness :
    getKey [("idiom", Json.str "mac"), ("size", Json.str "16x16"),
        ("scale", Json.str "2x")] "idiom" = some (.str "mac") ∧
    parse_size "16x16" = some 16 ∧
    scale_factor "2x" = some 2 ∧
    (∃ pre' post' cs₁ cs₂ fs₁ fs₂,
      processImages (fun _ => true) [] = (.ok pre', cs₁, fs₁) ∧
      processImages (fun _ => true) [] = (.ok post', cs₂, fs₂) ∧
      [Json.obj [("idiom", Json.str "mac"), ("size", Json.str "16x16"),
          ("scale", Json.str "2x"),
          ("filename", Json.str "mercury-appicon_16x16@2x.png")]] =
        pre' ++ .obj (setObjKey [("idiom", Json.str "mac"), ("size", Json.str "16x16"),
          ("scale", Json.str "2x")] "filename"
            (.str (build_filename 16 2))) :: post' ∧
      [(⟨"mercury-appicon_16x16@2x.png", 32, 32⟩ : RenderCall)] =
        cs₁ ++ (⟨build_filename 16 2, 16 * 2, 16 * 2⟩ : RenderCall) :: cs₂ ∧
      ["mercury-appicon_16x16@2x.png"] = fs₁ ++ build_filename 16 2 :: fs₂) := by
  refine ⟨rfl, rfl, rfl, ?_⟩
  exact claim_c1 (fun _ => true) [] []
    [("idiom", Json.str "mac"), ("size", Json.str "16x16"), ("scale", Json.str "2x")]
    "16x16" "2x" 16 2
    [Json.obj [("idiom", Json.str "mac"), ("size", Json.str "16x16"),
      ("scale", Json.str "2x"),
      ("filename", Json.str "mercury-appicon_16x16@2x.png")]]
    [⟨"mercury-appicon_16x16@2x.png", 32, 32⟩]
    ["mercury-appicon_16x16@2x.png"]
    rfl rfl rfl rfl rfl rfl

/-- C3: an entry whose `idiom` is not the string `"mac"`, or whose `size`
field is missing or falsy, or whose `scale` field is missing or falsy, is
left entirely untouched by the loop body (any existing `filename` field
included), triggers no render call and no output file, and a successful
run around it just frames it. -/
theorem claim_c3 (r : RenderCall → Bool) (kvs : List (String × Json))
    (pre post : List Json)
    (hskip : isMacIdiom (getKey kvs "idiom") = false ∨
      truthyOpt (getKey kvs "size") = false ∨
      truthyOpt (getKey kvs "scale") = false) :
    processImage r (.obj kvs) = ⟨.ok (.obj kvs), none, none⟩ ∧
    (∀ out cs fs, processImages r (pre ++ .obj kvs :: post) = (.ok out, cs, fs) →
      ∃ pre' post' cs₁ cs₂ fs₁ fs₂,
        processImages r pre = (.ok pre', cs₁, fs₁) ∧
        processImages r post = (.ok post', cs₂, fs₂) ∧
        out = pre' ++ .obj kvs :: post' ∧ cs = cs₁ ++ cs₂ ∧ fs = fs₁ ++ fs₂) := by
  have hmid := processImage_skip r kvs hskip
  refine ⟨hmid, ?_⟩
  intro out cs fs hrun
  rw [processImages_append r pre (.obj kvs :: post)] at hrun
  rcases h1 : processImages r pre with ⟨res1, cs1, fs1⟩
  rw [h1] at hrun
  cases res1 with
  | error e => simp at hrun
  | ok pre' =>
    rcases h2 : processImages r post with ⟨res2, cs2, fs2⟩
    simp only [processImages, hmid, h2] at hrun
    cases res2 with
    | error e => simp at hrun
    | ok post' =>
      obtain ⟨hout, hcs, hfs⟩ := by simpa using hrun
      exact ⟨pre', post', cs1, cs2, fs1, fs2, rfl, rfl, hout.symm, hcs.symm, hfs.symm⟩

/-- Witness for C3: an `iphone` entry with an existing `filename`,
framed by one selected `mac` entry before it. -/
theorem claim_c3_witness :
    isMacIdiom (getKey [("idiom", Json.str "iphone"), ("size", Json.str "16x16"),
        ("scale", Json.str "1x"), ("filename", Json.str "old.png")] "idiom") = false ∧
    (processImage (fun _ => true)
        (.obj [("idiom", Json.str "iphone"), ("size", Json.str "16x16"),
          ("scale", Json.str "1x"), ("filename", Json.str "old.png")]) =
      ⟨.ok (.obj [("idiom", Json.str "iphone"), ("size", Json.str "16x16"),
          ("scale", Json.str "1x"), ("filename", Json.str "old.png")]), none, none⟩) ∧
    (∀ out cs fs,
      processImages (fun _ => true)
          ([Json.obj [("idiom", Json.str "mac"), ("size", Json.str "16x16"),
            ("scale", Json.str "1x")]] ++
            Json.obj [("idiom", Json.str "iphone"), ("size", Json.str "16x16"),
              ("scale", Json.str "1x"), ("filename", Json.str "old.png")] :: []) =
          (.ok out, cs, fs) →
      ∃ pre' post' cs₁ cs₂ fs₁ fs₂,
        processImages (fun _ => true)
            [Json.obj [("idiom", Json.str "mac"), ("size", Json.str "16x16"),
              ("scale", Json.str "1x")]] = (.ok pre', cs₁, fs₁) ∧
        processImages (fun _ => true) [] = (.ok post', cs₂, fs₂) ∧
        out = pre' ++ .obj [("idiom", Json.str "iphone"), ("size", Json.str "16x16"),
            ("scale", Json.str "1x"), ("filename", Json.str "old.png")] :: post' ∧
        cs = cs₁ ++ cs₂ ∧ fs = fs₁ ++ fs₂) := by
  refine ⟨rfl, ?_⟩
  exact claim_c3 (fun _ => true)
    [("idiom", Json.str "iphone"), ("size", Json.str "16x16"),
      ("scale", Json.str "1x"), ("filename", Json.str "old.png")]
    [Json.obj [("idiom", Json.str "mac"), ("size", Json.str "16x16"),
      ("scale", Json.str "1x")]] []
    (Or.inl rfl)

/-! ## Claim C2: structure preservation of the rewrite -/

theorem processImage_ok_rel (r : RenderCall → Bool) (e e' : Json)
    (c : Option RenderCall) (f : Option String)
    (h : processImage r e = ⟨.ok e', c, f⟩) : entryRel e e' := by
  cases e with
  | obj kvs =>
    rcases hI : isMacIdiom (getKey kvs "idiom") with _ | _
    case false =>
      have hskip := processImage_skip r kvs (Or.inl hI)
      rw [hskip] at h
      obtain ⟨h1, h2, h3⟩ := by simpa using h
      exact ⟨fun _ => h1.symm, fun hsel => absurd hsel (by simp [selectedEntry, hI])⟩
    case true =>
      rcases hS : truthyOpt (getKey kvs "size") with _ | _
      case false =>
        have hskip := processImage_skip r kvs (Or.inr (Or.inl hS))
        rw [hskip] at h
        obtain ⟨h1, h2, h3⟩ := by simpa using h
        exact ⟨fun _ => h1.symm, fun hsel => absurd hsel (by simp [selectedEntry, hS])⟩
      case true =>
        rcases hT : truthyOpt (getKey kvs "scale") with _ | _
        case false =>
          have hskip := processImage_skip r kvs (Or.inr (Or.inr hT))
          rw [hskip] at h
          obtain ⟨h1, h2, h3⟩ := by simpa using h
          exact ⟨fun _ => h1.symm, fun hsel => absurd hsel (by simp [selectedEntry, hT])⟩
        case true =>
          have hsel : selectedEntry (.obj kvs) = true := by
            simp [selectedEntry, hI, hS, hT]
          refine ⟨fun hf => absurd hsel (by simp [hf]), fun _ => ?_⟩
          rcases hsz : getKey kvs "size" with _ | szv
          · rw [hsz] at hS
            exact absurd hS (by simp [truthyOpt])
          · rw [hsz] at hS
            cases szv with
            | str s =>
              rcases hps : parse_size s with _ | W
              · simp [processImage, hI, hS, hT, hsz, hps] at h
              · rcases hsc : getKey kvs "scale" with _ | scv
                · rw [hsc] at hT
                  exact absurd hT (by simp [truthyOpt])
                · rw [hsc] at hT
                  cases scv with
                  | str t =>
                    rcases hpt : scale_factor t with _ | N
                    · simp [processImage, hI, hS, hT, hsz, hps, hsc, hpt] at h
                    · cases hr : r ⟨build_filename W N, W * N, W * N⟩ with
                      | false =>
                        simp [processImage, hI, hS, hT, hsz, hps, hsc, hpt, hr] at h
                      | true =>
                        obtain ⟨h1, h2, h3⟩ := by
                          simpa [processImage, hI, hS, hT, hsz, hps, hsc, hpt, hr] using h
                        exact ⟨kvs, build_filename W N, rfl, h1.symm⟩
                  | null => simp [processImage, hI, hS, hT, hsz, hps, hsc] at h
                  | bool b => simp [processImage, hI, hS, hT, hsz, hps, hsc] at h
                  | num n => simp [processImage, hI, hS, hT, hsz, hps, hsc] at h
                  | arr xs => simp [processImage, hI, hS, hT, hsz, hps, hsc] at h
                  | obj o => simp [processImage, hI, hS, hT, hsz, hps, hsc] at h
            | null => simp [processImage, hI, hS, hT, hsz] at h
            | bool b => simp [processImage, hI, hS, hT, hsz] at h
            | num n => simp [processImage, hI, hS, hT, hsz] at h
            | arr xs => simp [processImage, hI, hS, hT, hsz] at h
            | obj o => simp [processImage, hI, hS, hT, hsz] at h
  | null => simp [processImage] at h
  | bool b => simp [processImage] at h
  | num n => simp [processImage] at h
  | str s => simp [processImage] at h
  | arr xs => simp [processImage] at h

theorem processImages_ok_forall₂ (r : RenderCall → Bool) (imgs : List Json)
    (imgs' : List Json) (cs : List RenderCall) (fs : List String)
    (h : processImages r imgs = (.ok imgs', cs, fs)) :
    List.Forall₂ entryRel imgs imgs' := by
  induction imgs generalizing imgs' cs fs with
  | nil =>
    obtain ⟨h1, h2, h3⟩ := by simpa [processImages] using h
    rw [h1]
    exact List.Forall₂.nil
  | cons x xs ih =>
    rcases hpx : processImage r x with ⟨res, c, f⟩
    cases res with
    | error e => simp [processImages, hpx] at h
    | ok x' =>
      rcases hxs : processImages r xs with ⟨res2, cs2, fs2⟩
      simp only [processImages, hpx, hxs] at h
      cases res2 with
      | error e => simp at h
      | ok xs' =>
        obtain ⟨h1, h2, h3⟩ := by simpa using h
        rw [← h1]
        exact List.Forall₂.cons (processImage_ok_rel r x x' c f hpx) (ih xs' cs2 fs2 hxs)

theorem setObjKey_getKey_self (kvs : List (String × Json)) (k : String) (v : Json)
    (h : getKey kvs k = some v) : setObjKey kvs k v = kvs := by
  induction kvs with
  | nil => exact Option.noConfusion h
  | cons kv rest ih =>
    rcases kv with ⟨k0, w⟩
    rcases hk : k0 == k with _ | _
    · simp [getKey, hk] at h
      simp [setObjKey, hk, ih h]
    · simp [getKey, hk] at h
      simp [setObjKey, hk, h]

theorem bindingRel_refl (kv : String × Json) : bindingRel kv kv :=
  ⟨rfl, fun _ => rfl, fun _ => Or.inl rfl⟩

theorem setObjKey_images_forall₂ (kvs : List (String × Json)) (imgs imgs' : List Json)
    (him : getKey kvs "images" = some (.arr imgs))
    (hrel : List.Forall₂ entryRel imgs imgs') :
    List.Forall₂ bindingRel kvs (setObjKey kvs "images" (.arr imgs')) := by
  induction kvs with
  | nil => exact Option.noConfusion him
  | cons kv rest ih =>
    rcases kv with ⟨k0, w⟩
    rcases hk : k0 == "images" with _ | _
    · simp [getKey, hk] at him
      have hset : setObjKey ((k0, w) :: rest) "images" (.arr imgs') =
          (k0, w) :: setObjKey rest "images" (.arr imgs') := by
        simp [setObjKey, hk]
      rw [hset]
      exact List.Forall₂.cons (bindingRel_refl _) (ih him)
    · have hk0 : k0 = "images" := beq_iff_eq.mp hk
      simp [getKey, hk] at him
      have hset : setObjKey ((k0, w) :: rest) "images" (.arr imgs') =
          (k0, .arr imgs') :: rest := by
        simp [setObjKey, hk]
      rw [hset]
      refine List.Forall₂.cons ⟨rfl, fun hne => absurd hk0 hne,
        fun _ => Or.inr ⟨imgs, imgs', him, rfl, hrel⟩⟩ ?_
      exact List.forall₂_same.mpr (fun kv _ => bindingRel_refl kv)

/-- C2 (amended): after a successful run, the manifest keeps the same
top-level bindings in the same order with the same keys; every binding
other than `"images"` is unchanged, within `"images"` every entry not
matching the selection filter is unchanged (order and values), and
selected entries differ at most in their `filename` binding.  (The claim's
byte-level reading fails: see the counterexample.) -/
theorem claim_c2 (r : RenderCall → Bool) (kvs : List (String × Json))
    (out : Json) (cs : List RenderCall) (fs : List String)
    (h : runData r (.obj kvs) = (.ok out, cs, fs)) :
    ∃ kvs', out = .obj kvs' ∧ List.Forall₂ bindingRel kvs kvs' := by
  rcases him : getKey kvs "images" with _ | v
  · obtain ⟨h1, h2, h3⟩ := by simpa [runData, him] using h
    exact ⟨kvs, h1.symm, List.forall₂_same.mpr (fun kv _ => bindingRel_refl kv)⟩
  · cases v with
    | arr imgs =>
      rcases hp : processImages r imgs with ⟨res, cs0, fs0⟩
      cases res with
      | error e => simp [runData, him, hp] at h
      | ok imgs' =>
        obtain ⟨h1, h2, h3⟩ := by simpa [runData, him, hp] using h
        exact ⟨setObjKey kvs "images" (.arr imgs'), h1.symm,
          setObjKey_images_forall₂ kvs imgs imgs' him
            (processImages_ok_forall₂ r imgs imgs' cs0 fs0 hp)⟩
    | str s =>
      rcases hs : s == "" with _ | _
      · simp [runData, him, hs] at h
      · obtain ⟨h1, h2, h3⟩ := by simpa [runData, him, hs] using h
        exact ⟨kvs, h1.symm, List.forall₂_same.mpr (fun kv _ => bindingRel_refl kv)⟩
    | obj okvs =>
      cases okvs with
      | nil =>
        obtain ⟨h1, h2, h3⟩ := by simpa [runData, him] using h
        exact ⟨kvs, h1.symm, List.forall₂_same.mpr (fun kv _ => bindingRel_refl kv)⟩
      | cons a l => simp [runData, him] at h
    | null => simp [runData, him] at h
    | bool b => simp [runData, him] at h
    | num n => simp [runData, him] at h

/-- Witness for the amended C2: a manifest with an unrelated `info` field
and one non-matching entry. -/
theorem claim_c2_witness :
    runData (fun _ => true)
        (.obj [("info", Json.num 1),
          ("images", Json.arr [Json.obj [("idiom", Json.str "iphone")]])]) =
      (.ok (.obj [("info", Json.num 1),
          ("images", Json.arr [Json.obj [("idiom", Json.str "iphone")]])]), [], []) ∧
    (∃ kvs', (Json.obj [("info", Json.num 1),
          ("images", Json.arr [Json.obj [("idiom", Json.str "iphone")]])]) = .obj kvs' ∧
      List.Forall₂ bindingRel
        [("info", Json.num 1),
          ("images", Json.arr [Json.obj [("idiom", Json.str "iphone")]])] kvs') := by
  refine ⟨rfl, ?_⟩
  exact claim_c2 (fun _ => true)
    [("info", Json.num 1),
      ("images", Json.arr [Json.obj [("idiom", Json.str "iphone")]])]
    (.obj [("info", Json.num 1),
      ("images", Json.arr [Json.obj [("idiom", Json.str "iphone")]])]) [] [] rfl

/-- Counterexample to C2 as stated: on the manifest file content
`\x7b"a":1\x7d` nothing matches the selection filter and no filename is
assigned, yet the file content after the successful run differs byte-wise
from the content before, because the whole document is re-serialized with
`json.dumps(..., indent=2)`. -/
theorem claim_c2_counterexample :
    (runFile true (some "\x7b\"a\":1\x7d") (fun _ => true)).result = .ok () ∧
    (runFile true (some "\x7b\"a\":1\x7d") (fun _ => true)).calls = [] ∧
    (runFile true (some "\x7b\"a\":1\x7d") (fun _ => true)).files = [] ∧
    (runFile true (some "\x7b\"a\":1\x7d") (fun _ => true)).manifestAfter =
      some "\x7b\n  \"a\": 1\n\x7d\n" ∧
    ("\x7b\n  \"a\": 1\n\x7d\n" : String) ≠ "\x7b\"a\":1\x7d" :=
  ⟨rfl, rfl, rfl, rfl, by decide⟩

/-! ## Claims C4, C5, C10 -/

/-- C4: with the SVG missing the run aborts with the "missing input"
`SystemExit` (non-zero exit) for every manifest state — so before the
manifest is even read — with no render call, no file written and the
manifest untouched; with the SVG present but the manifest missing it
aborts with the "missing manifest" `SystemExit`, again with no render
call and no file written. -/
theorem claim_c4 (m : Option String) (r : RenderCall → Bool) :
    runFile false m r = ⟨.error .svgMissing, [], [], m⟩ ∧
    runFile true none r = ⟨.error .manifestMissing, [], [], none⟩ :=
  ⟨rfl, rfl⟩

/-- C5: if a selected entry fails during processing (parse error on
`size`/`scale`, the `AttributeError` cases, or a render failure) and the
entries before it succeeded, the run terminates with exactly that error
propagated to the top level and the manifest file content is left
unchanged: the rewrite happens only after every entry has been processed
successfully. -/
theorem claim_c5 (r : RenderCall → Bool) (t : String)
    (kvs : List (String × Json)) (pre post : List Json) (img : Json)
    (pre' : List Json) (cs₁ : List RenderCall) (fs₁ : List String)
    (e : Err) (c : Option RenderCall) (f : Option String)
    (hl : loads t = some (.obj kvs))
    (hi : getKey kvs "images" = some (.arr (pre ++ img :: post)))
    (hpre : processImages r pre = (.ok pre', cs₁, fs₁))
    (herr : processImage r img = ⟨.error e, c, f⟩) :
    (runFile true (some t) r).result = .error e ∧
    (runFile true (some t) r).manifestAfter = some t := by
  have hloop : processImages r (pre ++ img :: post) =
      (.error e, cs₁ ++ c.toList, fs₁ ++ f.toList) := by
    rw [processImages_append, hpre]
    simp [processImages, herr]
  have hrd : runData r (.obj kvs) =
      (.error e, cs₁ ++ c.toList, fs₁ ++ f.toList) := by
    simp [runData, hi, hloop]
  constructor <;> simp [runFile, hl, hrd]

/-- Witness for C5: a one-entry manifest whose `size` field `"axb"` does
not parse; the run fails with the propagated `ValueError` and the file
content is untouched. -/
theorem claim_c5_witness :
    loads "\x7b\"images\": [\x7b\"idiom\": \"mac\", \"size\": \"axb\", \"scale\": \"1x\"\x7d]\x7d" =
      some (.obj [("images", Json.arr [Json.obj [("idiom", Json.str "mac"),
        ("size", Json.str "axb"), ("scale", Json.str "1x")]])]) ∧
    processImage (fun _ => true)
        (.obj [("idiom", Json.str "mac"), ("size", Json.str "axb"),
          ("scale", Json.str "1x")]) = ⟨.error .valueError, none, none⟩ ∧
    (runFile true
        (some "\x7b\"images\": [\x7b\"idiom\": \"mac\", \"size\": \"axb\", \"scale\": \"1x\"\x7d]\x7d")
        (fun _ => true)).result = .error .valueError ∧
    (runFile true
        (some "\x7b\"images\": [\x7b\"idiom\": \"mac\", \"size\": \"axb\", \"scale\": \"1x\"\x7d]\x7d")
        (fun _ => true)).manifestAfter =
      some "\x7b\"images\": [\x7b\"idiom\": \"mac\", \"size\": \"axb\", \"scale\": \"1x\"\x7d]\x7d" := by
  refine ⟨rfl, rfl, ?_⟩
  exact claim_c5 (fun _ => true)
    "\x7b\"images\": [\x7b\"idiom\": \"mac\", \"size\": \"axb\", \"scale\": \"1x\"\x7d]\x7d"
    [("images", Json.arr [Json.obj [("idiom", Json.str "mac"),
      ("size", Json.str "axb"), ("scale", Json.str "1x")]])]
    [] [] (.obj [("idiom", Json.str "mac"), ("size", Json.str "axb"),
      ("scale", Json.str "1x")])
    [] [] [] .valueError none none rfl rfl rfl rfl

theorem runData_no_images (r : RenderCall → Bool) (kvs : List (String × Json))
    (him : getKey kvs "images" = none ∨ getKey kvs "images" = some (.arr [])) :
    runData r (.obj kvs) = (.ok (.obj kvs), [], []) := by
  rcases him with him | him
  · simp [runData, him]
  · have hset := setObjKey_getKey_self kvs "images" (.arr []) him
    simp [runData, him, processImages, hset]

/-- C10: when both files exist and the manifest parses as JSON to an
object with no `images` field (or with an empty `images` array), the run
succeeds with exit code 0, makes no render call, writes no image file,
and still rewrites the manifest as the serializer output plus a single
trailing newline. -/
theorem claim_c10 (r : RenderCall → Bool) (t : String)
    (kvs : List (String × Json))
    (hl : loads t = some (.obj kvs))
    (him : getKey kvs "images" = none ∨ getKey kvs "images" = some (.arr [])) :
    runFile true (some t) r =
      ⟨.ok (), [], [], some (dumps (dumpsFuel t) (.obj kvs) ++ "\n")⟩ := by
  simp [runFile, hl, runData_no_images r kvs him]

/-- Witness for C10: the manifest `\x7b\x7d`, rewritten as `\x7b\x7d`
plus one newline. -/
theorem claim_c10_witness :
    loads "\x7b\x7d" = some (.obj []) ∧
    runFile true (some "\x7b\x7d") (fun _ => true) =
      ⟨.ok (), [], [],
        some (dumps (dumpsFuel "\x7b\x7d") (.obj []) ++ "\n")⟩ ∧
    dumps (dumpsFuel "\x7b\x7d") (.obj []) ++ "\n" = obrace ++ cbrace ++ "\n" := by
  refine ⟨rfl, ?_, rfl⟩
  exact claim_c10 (fun _ => true) "\x7b\x7d" [] rfl (Or.inl rfl)
